import Mathlib

/-!
Café favourites and search: a verification development.

Shallow embedding of `static/js/favorite.js` (class `FavoriteManager`) and
`static/js/search.js` (class `SearchManager`).

Modelling conventions.

* A JavaScript method that mutates `this` and the browser becomes a function
  from the state before the call to the returned value and the state after it.
* What the browser decides (the clock, the answer to `confirm`, whether
  `localStorage` accepts a write, what `JSON.stringify` prints) is an explicit
  input of each call, gathered in `Env`.
* Side effects that leave the manager (toasts, console errors, listener calls,
  storage writes) are appended to an ordered log in `Browser`.
* Ids are strings, as `btn.dataset.cafeId` and the data model have them, so
  `===` on ids is equality of strings.
* `JSON.parse` is modelled by a parser for the JSON grammar. Numbers are
  doubles (`Float`); no property below depends on their value.
* `await` is sequential here: a call to the backend or to the mock provider
  is a function that yields a value or throws.
-/

set_option autoImplicit false

/-! ## Data model -/

/-- The record handed to `addFavorite` / `toggleFavorite`. A field that the
caller left out (`undefined` in JavaScript) is `none`. -/
structure Cafe where
  id : String
  name : Option String
  address : Option String
  features : Option (List String)
  hashtags : Option (List String)
  score : Option Float

/-- The object literal built at favorite.js:53-61. -/
structure FavoriteItem where
  id : String
  name : Option String
  address : Option String
  features : List String
  hashtags : List String
  score : Option Float
  addedAt : String

/-! ## JavaScript values and `JSON.parse` -/

/-- JavaScript values as far as JSON text and a response payload can hold them.
An object is kept as its member list in source order; a property read takes the
last member with that key, as a repeated key overwrites the earlier one. -/
inductive JSValue where
  | undefined
  | null
  | bool (b : Bool)
  | num (x : Float)
  | str (s : String)
  | arr (items : List JSValue)
  | obj (members : List (String × JSValue))

namespace JSValue

/-- ToBoolean, the test behind `?:`, `||` and `if`. -/
def truthy : JSValue → Bool
  | undefined => false
  | null => false
  | bool b => b
  | num x => !(x == 0 || x.isNaN)
  | str s => s != ""
  | arr _ => true
  | obj _ => true

/-- The last member stored under `key`. -/
def lookupMember (key : String) : List (String × JSValue) → Option JSValue
  | [] => none
  | (k, v) :: rest =>
    match lookupMember key rest with
    | some w => some w
    | none => if k = key then some v else none

/-- Property read `value.key` for a key that no prototype defines: a
`TypeError` on `undefined` and `null`, the member of an object, `undefined`
on everything else. -/
def getProp (value : JSValue) (key : String) : Except String JSValue :=
  match value with
  | undefined => .error "TypeError: Cannot read properties of undefined"
  | null => .error "TypeError: Cannot read properties of null"
  | obj members => .ok ((lookupMember key members).getD undefined)
  | _ => .ok undefined

/-- The expression `value || []`. -/
def orEmptyArray (value : JSValue) : JSValue :=
  if value.truthy then value else arr []

end JSValue

namespace JSON

/-- JSON whitespace: space, tab, line feed, carriage return. -/
def isWhitespace (c : Char) : Bool :=
  c = ' ' || c = '\t' || c = '\n' || c = '\r'

/-- Drops leading whitespace. -/
def skipWs : List Char → List Char
  | [] => []
  | c :: cs => if isWhitespace c then skipWs cs else c :: cs

/-- Decimal digit test. -/
def isDigit (c : Char) : Bool := 48 ≤ c.toNat && c.toNat ≤ 57

/-- Value of a hexadecimal digit, either case. -/
def hexValue (c : Char) : Option Nat :=
  if 48 ≤ c.toNat ∧ c.toNat ≤ 57 then some (c.toNat - 48)
  else if 97 ≤ c.toNat ∧ c.toNat ≤ 102 then some (c.toNat - 87)
  else if 65 ≤ c.toNat ∧ c.toNat ≤ 70 then some (c.toNat - 55)
  else none

/-- Code unit of a one-letter escape. -/
def escapeUnit (c : Char) : Option Nat :=
  if c = Char.ofNat 34 then some 34
  else if c = Char.ofNat 92 then some 92
  else if c = '/' then some 47
  else if c = 'b' then some 8
  else if c = 'f' then some 12
  else if c = 'n' then some 10
  else if c = 'r' then some 13
  else if c = 't' then some 9
  else none

/-- UTF-16 code units of a character. -/
def utf16Units (c : Char) : List Nat :=
  if c.toNat < 65536 then [c.toNat]
  else [55296 + (c.toNat - 65536) / 1024, 56320 + (c.toNat - 65536) % 1024]

/-- The code units of a string literal, read from just after its opening
quote up to the closing quote, and the text after it. -/
def stringUnits : List Char → Option (List Nat × List Char)
  | [] => none
  | c :: rest =>
    if c = Char.ofNat 34 then some ([], rest)
    else if c = Char.ofNat 92 then
      match rest with
      | [] => none
      | e :: rest1 =>
        if e = 'u' then
          match rest1 with
          | h1 :: h2 :: h3 :: h4 :: rest2 =>
            match hexValue h1, hexValue h2, hexValue h3, hexValue h4, stringUnits rest2 with
            | some a, some b, some c, some d, some (us, r) =>
              some ((a * 4096 + b * 256 + c * 16 + d) :: us, r)
            | _, _, _, _, _ => none
          | _ => none
        else
          match escapeUnit e, stringUnits rest1 with
          | some u, some (us, r) => some (u :: us, r)
          | _, _ => none
    else if c.toNat < 32 then none
    else
      match stringUnits rest with
      | some (us, r) => some (utf16Units c ++ us, r)
      | none => none

/-- Code units back to characters. A surrogate pair is one character; a lone
surrogate, which a Lean string cannot hold, is shown as U+FFFD. -/
def decodeUnits : List Nat → List Char
  | [] => []
  | [u] => [if 55296 ≤ u ∧ u < 57344 then Char.ofNat 65533 else Char.ofNat u]
  | u :: v :: us =>
    if 55296 ≤ u ∧ u < 56320 ∧ 56320 ≤ v ∧ v < 57344 then
      Char.ofNat (65536 + (u - 55296) * 1024 + (v - 56320)) :: decodeUnits us
    else if 55296 ≤ u ∧ u < 57344 then Char.ofNat 65533 :: decodeUnits (v :: us)
    else Char.ofNat u :: decodeUnits (v :: us)

/-- A string literal, read from just after its opening quote. -/
def stringLit (cs : List Char) : Option (String × List Char) :=
  match stringUnits cs with
  | some (us, r) => some (String.mk (decodeUnits us), r)
  | none => none

/-- The longest run of digits and the text after it. -/
def takeDigits : List Char → List Char × List Char
  | [] => ([], [])
  | c :: cs =>
    if isDigit c then (c :: (takeDigits cs).1, (takeDigits cs).2) else ([], c :: cs)

/-- Decimal value of a run of digits. -/
def digitsValue (ds : List Char) : Nat :=
  ds.foldl (fun n c => 10 * n + (c.toNat - 48)) 0

/-- Integer part of a number: a single `0`, or a non-zero digit and digits. -/
def intPart : List Char → Option (List Char × List Char)
  | [] => none
  | c :: cs =>
    if c = '0' then some (['0'], cs)
    else if isDigit c then some (c :: (takeDigits cs).1, (takeDigits cs).2)
    else none

/-- Optional fraction: a dot and at least one digit. -/
def fracPart : List Char → Option (List Char × List Char)
  | [] => some ([], [])
  | c :: cs =>
    if c = '.' then
      match takeDigits cs with
      | ([], _) => none
      | (ds, r) => some (ds, r)
    else some ([], c :: cs)

/-- Optional exponent: `e` or `E`, an optional sign, at least one digit. -/
def expPart : List Char → Option (Int × List Char)
  | [] => some (0, [])
  | c :: cs =>
    if c = 'e' ∨ c = 'E' then
      match cs with
      | [] => none
      | s :: cs1 =>
        if s = '+' then
          match takeDigits cs1 with
          | ([], _) => none
          | (ds, r) => some ((digitsValue ds : Int), r)
        else if s = '-' then
          match takeDigits cs1 with
          | ([], _) => none
          | (ds, r) => some (- (digitsValue ds : Int), r)
        else
          match takeDigits cs with
          | ([], _) => none
          | (ds, r) => some ((digitsValue ds : Int), r)
    else some (0, c :: cs)

/-- The double nearest to `num / den`, a tie going to the even mantissa; `den`
is positive. The quotient is scaled by a power of two to a 53-bit integer (or
to fewer bits at the bottom of the range), rounded, and scaled back. -/
def nearestDouble (num den : Nat) : Float :=
  if num = 0 then 0
  else
    let scaled (k : Int) : Nat × Nat :=
      if k < 0 then (num * 2 ^ k.natAbs, den) else (num, den * 2 ^ k.natAbs)
    let k0 : Int := (num.log2 : Int) - (den.log2 : Int) - 52
    let k1 : Int := if (scaled k0).1 / (scaled k0).2 < 2 ^ 52 then k0 - 1 else k0
    let k : Int := if k1 < -1074 then -1074 else k1
    let q := (scaled k).1 / (scaled k).2
    let r := (scaled k).1 % (scaled k).2
    let q1 := if (scaled k).2 < 2 * r ∨ (2 * r = (scaled k).2 ∧ q % 2 = 1) then q + 1 else q
    Float.ofBinaryScientific q1 k

/-- The double written `mantissa × 10 ^ exponent`, negated when asked. -/
def decimalToFloat (negative : Bool) (mantissa : Nat) (exponent : Int) : Float :=
  let x := if exponent < 0 then nearestDouble mantissa (10 ^ exponent.natAbs)
           else nearestDouble (mantissa * 10 ^ exponent.natAbs) 1
  if negative then -x else x

/-- A number without its sign. -/
def unsignedNumber (negative : Bool) (cs : List Char) : Option (Float × List Char) :=
  match intPart cs with
  | none => none
  | some (ip, r1) =>
    match fracPart r1 with
    | none => none
    | some (fp, r2) =>
      match expPart r2 with
      | none => none
      | some (e, r3) =>
        some (decimalToFloat negative (digitsValue (ip ++ fp)) (e - fp.length), r3)

/-- A number literal. -/
def numberLit : List Char → Option (Float × List Char)
  | [] => none
  | c :: cs => if c = '-' then unsignedNumber true cs else unsignedNumber false (c :: cs)

/-- Removes the given keyword from the front of the text. -/
def dropKeyword : List Char → List Char → Option (List Char)
  | [], cs => some cs
  | _ :: _, [] => none
  | k :: ks, c :: cs => if k = c then dropKeyword ks cs else none

mutual

/-- A JSON value at the front of the text (whitespace already skipped) and the
text after it. The first argument bounds the depth of the recursion; `parse`
passes the length of the text plus one, which is enough for whatever the text
holds (`parse_bound_suffices`). -/
def value : Nat → List Char → Option (JSValue × List Char)
  | 0, _ => none
  | _ + 1, [] => none
  | n + 1, c :: cs =>
    if c = '[' then
      match skipWs cs with
      | [] => none
      | d :: r =>
        if d = ']' then some (JSValue.arr [], r)
        else
          match elements n (d :: r) with
          | some (xs, r1) => some (JSValue.arr xs, r1)
          | none => none
    else if c = Char.ofNat 123 then
      match skipWs cs with
      | [] => none
      | d :: r =>
        if d = Char.ofNat 125 then some (JSValue.obj [], r)
        else
          match members n (d :: r) with
          | some (ms, r1) => some (JSValue.obj ms, r1)
          | none => none
    else if c = Char.ofNat 34 then
      match stringLit cs with
      | some (s, r) => some (JSValue.str s, r)
      | none => none
    else if c = 't' then (dropKeyword "rue".toList cs).map (fun r => (JSValue.bool true, r))
    else if c = 'f' then (dropKeyword "alse".toList cs).map (fun r => (JSValue.bool false, r))
    else if c = 'n' then (dropKeyword "ull".toList cs).map (fun r => (JSValue.null, r))
    else
      match numberLit (c :: cs) with
      | some (x, r) => some (JSValue.num x, r)
      | none => none

/-- The elements of a non-empty array up to and including the closing
bracket. -/
def elements : Nat → List Char → Option (List JSValue × List Char)
  | 0, _ => none
  | n + 1, cs =>
    match value n cs with
    | none => none
    | some (v, r) =>
      match skipWs r with
      | [] => none
      | d :: r1 =>
        if d = ',' then
          match elements n (skipWs r1) with
          | some (vs, r2) => some (v :: vs, r2)
          | none => none
        else if d = ']' then some ([v], r1)
        else none

/-- The members of a non-empty object up to and including the closing
brace. -/
def members : Nat → List Char → Option (List (String × JSValue) × List Char)
  | 0, _ => none
  | _ + 1, [] => none
  | n + 1, q :: cs =>
    if q = Char.ofNat 34 then
      match stringLit cs with
      | none => none
      | some (k, r) =>
        match skipWs r with
        | [] => none
        | colon :: r1 =>
          if colon = ':' then
            match value n (skipWs r1) with
            | none => none
            | some (v, r2) =>
              match skipWs r2 with
              | [] => none
              | d :: r3 =>
                if d = ',' then
                  match members n (skipWs r3) with
                  | some (ms, r4) => some ((k, v) :: ms, r4)
                  | none => none
                else if d = Char.ofNat 125 then some ([(k, v)], r3)
                else none
          else none
    else none

end

/-- Model of `JSON.parse(text)`: the value the text denotes, or the `SyntaxError` that
`JSON.parse` throws when the text is not one JSON value between optional
whitespace. -/
def parse (text : String) : Except String JSValue :=
  match value (text.length + 1) (skipWs text.toList) with
  | some (v, rest) =>
    match skipWs rest with
    | [] => .ok v
    | _ :: _ => .error "SyntaxError: Unexpected non-whitespace character after JSON"
  | none => .error "SyntaxError: Unexpected token in JSON"

end JSON

/-- A registered callback: only its name and whether it throws on a given
list are observable. Callbacks are taken not to call back into the manager. -/
structure Listener where
  name : String
  throws : List FavoriteItem → Bool

/-- Side effects, in the order they happen. -/
inductive Event where
  | toast (message : String) (severity : String)
  | consoleError (message : String)
  | listenerCalled (name : String) (favorites : List FavoriteItem)
  | setItem (key : String) (value : String)

/-- The part of the browser the manager touches. -/
structure Browser where
  localStorage : String → Option String
  log : List Event

/-- What the browser decides during one call. -/
structure Env where
  /-- Result of `new Date().toISOString()`. -/
  now : String
  /-- Answer given to `confirm(...)`. -/
  confirm : Bool
  /-- Whether `localStorage.getItem` succeeds (it throws otherwise). -/
  getItemOk : Bool
  /-- Whether `localStorage.setItem` succeeds (it throws otherwise). -/
  setItemOk : Bool
  /-- Text that `JSON.stringify` prints for the favorites array. -/
  stringify : List FavoriteItem → String

/-- Fields of `FavoriteManager` (favorite.js:3-7). -/
structure FavoriteManager where
  storageKey : String
  favorites : List FavoriteItem
  listeners : List Listener

/-- Conversion done by a template literal on a string-or-undefined value. -/
def templateString : Option String → String
  | some s => s
  | none => "undefined"

/-- Call of `window.utils.showToast(message, severity)`. -/
def showToast (message severity : String) (b : Browser) : Browser :=
  { b with log := b.log ++ [Event.toast message severity] }

/-- Call of `console.error(message, ...)`. -/
def consoleError (message : String) (b : Browser) : Browser :=
  { b with log := b.log ++ [Event.consoleError message] }

/-- Call of `localStorage.setItem(key, value)`: `none` when it completes, `some e`
when it throws `e`; a write that throws leaves the storage as it was. -/
def localStorageSetItem (env : Env) (key value : String) (b : Browser) :
    Option String × Browser :=
  if env.setItemOk then
    (none, { localStorage := fun k => if k = key then some value else b.localStorage k,
             log := b.log ++ [Event.setItem key value] })
  else
    (some "QuotaExceededError", b)

/-- Call of `localStorage.getItem(key)`: the stored text, `null` (here `none`) when
the key is absent, or the exception it throws. -/
def localStorageGetItem (env : Env) (key : String) (b : Browser) :
    Except String (Option String) :=
  if env.getItemOk then .ok (b.localStorage key) else .error "SecurityError"

namespace FavoriteManager

/-- Body of favorite.js:10-18. `stored ? JSON.parse(stored) : []` parses when
`stored` is a non-empty string; an exception from `getItem` or from
`JSON.parse` lands in the `catch` block, which logs and returns `[]`. -/
def loadFavorites (env : Env) (storageKey : String) (b : Browser) : JSValue × Browser :=
  match localStorageGetItem env storageKey b with
  | .error e => (JSValue.arr [], consoleError ("Failed to load favorites: " ++ e) b)
  | .ok none => (JSValue.arr [], b)
  | .ok (some stored) =>
    if stored != "" then
      match JSON.parse stored with
      | .ok v => (v, b)
      | .error e => (JSValue.arr [], consoleError ("Failed to load favorites: " ++ e) b)
    else (JSValue.arr [], b)

/-- The loop of `forEach` at favorite.js:38: callbacks run in order; the first
one that throws ends the loop and its exception leaves `forEach`. -/
def forEachListener (favorites : List FavoriteItem) :
    List Listener → Browser → Option String × Browser
  | [], b => (none, b)
  | l :: ls, b =>
    let b1 : Browser := { b with log := b.log ++ [Event.listenerCalled l.name favorites] }
    if l.throws favorites then (some ("listener " ++ l.name ++ " threw"), b1)
    else forEachListener favorites ls b1

/-- Body of favorite.js:37-39. -/
def notifyListeners (m : FavoriteManager) (b : Browser) : Option String × Browser :=
  forEachListener m.favorites m.listeners b

/-- Body of favorite.js:21-29: the `try` block writes and then notifies; an
exception from either lands in the `catch` block, which logs and toasts. -/
def saveFavorites (env : Env) (m : FavoriteManager) (b : Browser) : Browser :=
  match localStorageSetItem env m.storageKey (env.stringify m.favorites) b with
  | (some e, b1) =>
    showToast "儲存收藏失敗" "error" (consoleError ("Failed to save favorites: " ++ e) b1)
  | (none, b1) =>
    match notifyListeners m b1 with
    | (some e, b2) =>
      showToast "儲存收藏失敗" "error" (consoleError ("Failed to save favorites: " ++ e) b2)
    | (none, b2) => b2

/-- Body of favorite.js:32-34. -/
def addListener (callback : Listener) (m : FavoriteManager) : FavoriteManager :=
  { m with listeners := m.listeners ++ [callback] }

/-- Body of favorite.js:42-44. -/
def isFavorite (m : FavoriteManager) (cafeId : String) : Bool :=
  m.favorites.any (fun fav => fav.id == cafeId)

/-- Body of favorite.js:47-67. -/
def addFavorite (env : Env) (cafe : Cafe) (m : FavoriteManager) (b : Browser) :
    Bool × FavoriteManager × Browser :=
  if m.isFavorite cafe.id then
    (false, m, showToast "此咖啡廳已在收藏清單中" "warning" b)
  else
    let favoriteItem : FavoriteItem :=
      { id := cafe.id
        name := cafe.name
        address := cafe.address
        features := cafe.features.getD []
        hashtags := cafe.hashtags.getD []
        score := cafe.score
        addedAt := env.now }
    let m1 : FavoriteManager := { m with favorites := favoriteItem :: m.favorites }
    let b1 := saveFavorites env m1 b
    (true, m1, showToast ("已收藏「" ++ templateString cafe.name ++ "」") "success" b1)

/-- Body of favorite.js:70-79. -/
def removeFavorite (env : Env) (cafeId : String) (m : FavoriteManager) (b : Browser) :
    Bool × FavoriteManager × Browser :=
  let cafe := m.favorites.find? (fun fav => fav.id == cafeId)
  let m1 : FavoriteManager := { m with favorites := m.favorites.filter (fun fav => fav.id != cafeId) }
  let b1 := saveFavorites env m1 b
  match cafe with
  | some c => (true, m1, showToast ("已取消收藏「" ++ templateString c.name ++ "」") "success" b1)
  | none => (true, m1, b1)

/-- Body of favorite.js:82-88. -/
def toggleFavorite (env : Env) (cafe : Cafe) (m : FavoriteManager) (b : Browser) :
    Bool × FavoriteManager × Browser :=
  if m.isFavorite cafe.id then removeFavorite env cafe.id m b
  else addFavorite env cafe m b

/-- Body of favorite.js:91-93. -/
def getFavorites (m : FavoriteManager) : List FavoriteItem :=
  m.favorites

/-- Body of favorite.js:96-98. -/
def getCount (m : FavoriteManager) : Nat :=
  m.favorites.length

/-- Body of favorite.js:101-109. -/
def clearAll (env : Env) (m : FavoriteManager) (b : Browser) :
    Bool × FavoriteManager × Browser :=
  if env.confirm then
    let m1 : FavoriteManager := { m with favorites := [] }
    let b1 := saveFavorites env m1 b
    (true, m1, showToast "已清空所有收藏" "success" b1)
  else
    (false, m, b)

end FavoriteManager


/-! ## Conversions the search code applies to a payload -/

namespace JSValue

/-- Property read `value.length`: a `TypeError` on `undefined` and `null`, the
number of elements of an array, the number of code units of a string, the
member `length` of an object, `undefined` on a number or a boolean. -/
def getLength (value : JSValue) : Except String JSValue :=
  match value with
  | undefined => .error "TypeError: Cannot read properties of undefined"
  | null => .error "TypeError: Cannot read properties of null"
  | arr items => .ok (num items.length.toFloat)
  | str s => .ok (num (s.toList.flatMap JSON.utf16Units).length.toFloat)
  | obj members => .ok ((lookupMember "length" members).getD undefined)
  | _ => .ok undefined

mutual

/-- Whether the conversion of the value to a string, as a template literal
does it, throws. A primitive never does. An object made by `JSON.parse` does
exactly when it has a member `toString`: that member is not a function, so
neither it nor the inherited `valueOf` yields a primitive. An array joins the
conversions of its elements, `null` and `undefined` counting as empty. -/
def throwsOnToString : JSValue → Bool
  | arr items => anyThrowsOnToString items
  | obj members => (lookupMember "toString" members).isSome
  | _ => false

/-- Whether the conversion of some element of the list throws. -/
def anyThrowsOnToString : List JSValue → Bool
  | [] => false
  | v :: vs => throwsOnToString v || anyThrowsOnToString vs

end

/-- The expression `[...value]`: a copy of an array, the code points of a
string, a `TypeError` on anything else (no other value here is iterable). -/
def spread (value : JSValue) : Except String JSValue :=
  match value with
  | arr items => .ok (arr items)
  | str s => .ok (arr (s.toList.map (fun c => str (String.singleton c))))
  | _ => .error "TypeError: value is not iterable"

end JSValue

/-! ## Search -/

/-- The filter record handed to `search` and `loadRecommendations`. -/
structure FilterParams where
  district : Option String
  features : Option String

/-- ToBoolean on a string-or-undefined value: a non-empty string. -/
def truthyString : Option String → Bool
  | some s => s != ""
  | none => false

namespace URLSearchParams

/-- UTF-8 bytes of a character. -/
def utf8Bytes (c : Char) : List Nat :=
  let n := c.toNat
  if n < 128 then [n]
  else if n < 2048 then [192 + n / 64, 128 + n % 64]
  else if n < 65536 then [224 + n / 4096, 128 + n / 64 % 64, 128 + n % 64]
  else [240 + n / 262144, 128 + n / 4096 % 64, 128 + n / 64 % 64, 128 + n % 64]

/-- Upper-case hexadecimal digit. -/
def hexDigit (n : Nat) : Char :=
  if n < 10 then Char.ofNat (48 + n) else Char.ofNat (55 + n)

/-- One byte in `application/x-www-form-urlencoded` form: a space is `+`,
ASCII letters, digits and `*-._` stand for themselves, the rest is `%XX`. -/
def encodeByte (b : Nat) : List Char :=
  if b = 32 then ['+']
  else if (48 ≤ b ∧ b ≤ 57) ∨ (65 ≤ b ∧ b ≤ 90) ∨ (97 ≤ b ∧ b ≤ 122) ∨
      b = 42 ∨ b = 45 ∨ b = 46 ∨ b = 95 then [Char.ofNat b]
  else ['%', hexDigit (b / 16), hexDigit (b % 16)]

/-- A name or a value in serialised form. -/
def encode (s : String) : String :=
  String.mk (s.toList.flatMap (fun c => (utf8Bytes c).flatMap encodeByte))

/-- Result of `params.toString()` on the pairs of a `URLSearchParams`, in order. -/
def toString (params : List (String × String)) : String :=
  "&".intercalate (params.map (fun p => encode p.1 ++ "=" ++ encode p.2))

end URLSearchParams

/-- The two collaborators a search goes to: `window.utils.apiRequest` and
`window.mockDataLoader`; each call yields a value or throws. -/
structure Transport where
  apiRequest : String → Except String JSValue
  searchCafes : String → FilterParams → Except String JSValue
  getRecommendations : FilterParams → Except String JSValue

/-- Calls that leave the search manager, in order. -/
inductive Call where
  | apiRequest (url : String)
  | searchCafes (query : String) (filterParams : FilterParams)
  | getRecommendations (filterParams : FilterParams)
  | consoleError (message : String)

/-- Fields of `SearchManager` (search.js:3-6). -/
structure SearchManager where
  currentResults : JSValue
  currentQuery : String

namespace SearchManager

/-- State after the constructor (search.js:3-6). -/
def new : SearchManager :=
  { currentResults := JSValue.arr [], currentQuery := "" }

/-- The pairs given to `new URLSearchParams` at search.js:19-23: `keyword`
always, `districts` and `features` when the filter field is truthy. -/
def advancedParams (query : String) (filterParams : FilterParams) : List (String × String) :=
  [("keyword", if query != "" then query else "")]
    ++ (match filterParams.district with
        | some d => if d != "" then [("districts", d)] else []
        | none => [])
    ++ (match filterParams.features with
        | some f => if f != "" then [("features", f)] else []
        | none => [])

/-- The branch taken at search.js:14-36: the URL handed to `apiRequest`, or
`none` on the branch that returns `[]` at once. -/
def requestUrl (query : String) (filterParams : FilterParams) : Option String :=
  let hasFilters := truthyString filterParams.district || truthyString filterParams.features
  if hasFilters then
    some ("/search/advanced?" ++ URLSearchParams.toString (advancedParams query filterParams))
  else if query != "" then
    some ("/search?" ++ URLSearchParams.toString [("q", query)])
  else
    none

/-- Body of search.js:9-53. The inner `try` block either returns `[]` at
once, or calls the backend, stores `data.results || []` (line 38) and prints
its `length` in a template literal (line 39). An exception in it lands in the
inner `catch`, which asks the mock provider: from `apiRequest`, from reading
`results` off `null`/`undefined`, or from the conversion of the length to a
string, in which case line 38 has already stored the list. An exception from
the mock provider lands in the outer `catch`, which logs it and throws it
again. `fromBackend` is the list the `try` block ends with, or the manager as
the exception leaves it. -/
def search (t : Transport) (query : String) (filterParams : FilterParams)
    (m : SearchManager) (calls : List Call) :
    Except String JSValue × SearchManager × List Call :=
  match requestUrl query filterParams with
  | none =>
    (.ok (JSValue.arr []), { currentResults := JSValue.arr [], currentQuery := "" }, calls)
  | some url =>
    let calls1 := calls ++ [Call.apiRequest url]
    let fromBackend : Except SearchManager JSValue :=
      match t.apiRequest url with
      | .error _ => .error m
      | .ok data =>
        match data.getProp "results" with
        | .error _ => .error m
        | .ok results =>
          match results.orEmptyArray.getLength with
          | .error _ => .error { m with currentResults := results.orEmptyArray }
          | .ok length =>
            if length.throwsOnToString then
              .error { m with currentResults := results.orEmptyArray }
            else .ok results.orEmptyArray
    match fromBackend with
    | .ok results =>
      (.ok results, { currentResults := results, currentQuery := query }, calls1)
    | .error m1 =>
      let calls2 := calls1 ++ [Call.searchCafes query filterParams]
      match t.searchCafes query filterParams with
      | .ok results =>
        (.ok results, { currentResults := results, currentQuery := query }, calls2)
      | .error e =>
        (.error e, m1, calls2 ++ [Call.consoleError ("Search failed: " ++ e)])

/-- The pairs appended at search.js:61-67. -/
def recommendationParams (filterParams : FilterParams) : List (String × String) :=
  (match filterParams.district with
    | some d => if d != "" then [("districts", d)] else []
    | none => [])
    ++ (match filterParams.features with
        | some f => if f != "" then [("features", f)] else []
        | none => [])

/-- Body of search.js:56-82. The `try` block prints
`data.recommendations?.length || 0` in a template literal (line 71) before it
returns `data.recommendations || []`; an exception from the request, from
reading `recommendations` off `null`/`undefined` or from that conversion
lands in the inner `catch`, which asks the mock provider. -/
def loadRecommendations (t : Transport) (filterParams : FilterParams) (calls : List Call) :
    Except String JSValue × List Call :=
  let url := "/recommendations?" ++ URLSearchParams.toString (recommendationParams filterParams)
  let calls1 := calls ++ [Call.apiRequest url]
  let fromBackend : Except String JSValue :=
    match t.apiRequest url with
    | .error e => .error e
    | .ok data =>
      match data.getProp "recommendations" with
      | .error e => .error e
      | .ok recommendations =>
        let length : JSValue :=
          match recommendations.getLength with
          | .ok l => l
          | .error _ => JSValue.undefined
        let shown : JSValue := if length.truthy then length else JSValue.num 0
        if shown.throwsOnToString then .error "TypeError: Cannot convert object to primitive value"
        else .ok recommendations.orEmptyArray
  match fromBackend with
  | .ok recommendations => (.ok recommendations, calls1)
  | .error _ =>
    let calls2 := calls1 ++ [Call.getRecommendations filterParams]
    match t.getRecommendations filterParams with
    | .ok recommendations => (.ok recommendations, calls2)
    | .error e => (.error e, calls2 ++ [Call.consoleError ("Load recommendations failed: " ++ e)])

/-- Body of search.js:85-87: the copy `[...this.currentResults]`. -/
def getCurrentResults (m : SearchManager) : Except String JSValue :=
  m.currentResults.spread

/-- Body of search.js:90-92. -/
def getCurrentQuery (m : SearchManager) : String :=
  m.currentQuery

end SearchManager

/-! ## Vocabulary of the properties -/

/-- No two items of the list share an id. -/
def distinctIds (favorites : List FavoriteItem) : Prop :=
  favorites.Pairwise (fun x y => x.id ≠ y.id)

/-- Some item of the list has this id. -/
def hasId (favorites : List FavoriteItem) (cafeId : String) : Prop :=
  ∃ fav ∈ favorites, fav.id = cafeId

/-- The favorite item that stands for a café: its id, name, address and score,
its features and hashtags or the empty list where the café has none, and the
time it was added. -/
def favoriteOf (cafe : Cafe) (addedAt : String) : FavoriteItem :=
  { id := cafe.id
    name := cafe.name
    address := cafe.address
    features := match cafe.features with
      | some fs => fs
      | none => []
    hashtags := match cafe.hashtags with
      | some hs => hs
      | none => []
    score := cafe.score
    addedAt := addedAt }

/-- A mutating call on the favorites manager. -/
inductive Op where
  | addFavorite (cafe : Cafe)
  | removeFavorite (cafeId : String)
  | toggleFavorite (cafe : Cafe)
  | clearAll
  | addListener (callback : Listener)

/-- One call, made in browser environment `env`. -/
def Op.apply (env : Env) (op : Op) (s : FavoriteManager × Browser) : FavoriteManager × Browser :=
  match op with
  | .addFavorite cafe => (FavoriteManager.addFavorite env cafe s.1 s.2).2
  | .removeFavorite cafeId => (FavoriteManager.removeFavorite env cafeId s.1 s.2).2
  | .toggleFavorite cafe => (FavoriteManager.toggleFavorite env cafe s.1 s.2).2
  | .clearAll => (FavoriteManager.clearAll env s.1 s.2).2
  | .addListener callback => (FavoriteManager.addListener callback s.1, s.2)

/-- A finite sequence of calls, each in its own environment, from left to
right. -/
def runOps : List (Env × Op) → FavoriteManager × Browser → FavoriteManager × Browser
  | [], s => s
  | (env, op) :: rest, s => runOps rest (op.apply env s)

/-- The filter record carries a constraint on this field: a non-empty string
is present. -/
def carries (field : Option String) : Prop :=
  ∃ v, field = some v ∧ v ≠ ""

/-- The filter pairs of an advanced request: `districts` and `features`, each
for a field that carries a constraint. -/
def filterPairs (filterParams : FilterParams) : List (String × String) :=
  (match filterParams.district with
    | some d => if d = "" then [] else [("districts", d)]
    | none => [])
  ++
  (match filterParams.features with
    | some f => if f = "" then [] else [("features", f)]
    | none => [])

/-! ## Sample data -/

/-- An environment in which storage works and `confirm` is declined. -/
def sampleEnv : Env :=
  { now := "2024-05-01T08:00:00.000Z"
    confirm := false
    getItemOk := true
    setItemOk := true
    stringify := fun favorites => String.join (favorites.map (fun fav => fav.id)) }

/-- An environment in which every storage write throws and `confirm` is
accepted. -/
def fullDiskEnv : Env :=
  { sampleEnv with setItemOk := false, confirm := true }

/-- A browser with empty storage and an empty log. -/
def emptyBrowser : Browser :=
  { localStorage := fun _ => none, log := [] }

/-- A browser whose storage holds `text` under the favorites key. -/
def browserWith (text : String) : Browser :=
  { localStorage := fun k => if k = "cafe_favorites" then some text else none, log := [] }

/-- A manager with no favorites and one listener. -/
def emptyManager : FavoriteManager :=
  { storageKey := "cafe_favorites"
    favorites := []
    listeners := [{ name := "updateFavoriteCount", throws := fun _ => false }] }

/-- First café of the scenario. -/
def cafeA : Cafe :=
  { id := "c1", name := some "Cafe A", address := some "1 Main St",
    features := some ["wifi"], hashtags := none, score := none }

/-- Second café of the scenario, given by its id alone. -/
def cafeB : Cafe :=
  { id := "c2", name := none, address := none, features := none, hashtags := none,
    score := none }

/-- A backend that is down and a mock provider that knows one café. -/
def offlineTransport : Transport :=
  { apiRequest := fun _ => .error "TypeError: Failed to fetch"
    searchCafes := fun _ _ => .ok (JSValue.arr [JSValue.obj [("id", JSValue.str "c1")]])
    getRecommendations := fun _ => .ok (JSValue.arr []) }

/-- A manager that holds the first café. -/
def storeWithA : FavoriteManager :=
  { emptyManager with favorites := [favoriteOf cafeA "2024-04-30T10:00:00.000Z"] }

/-- A backend that answers every request with an object that has no member,
and a mock provider that knows one café. -/
def emptyPayloadTransport : Transport :=
  { apiRequest := fun _ => .ok (JSValue.obj [])
    searchCafes := fun _ _ => .ok (JSValue.arr [JSValue.obj [("id", JSValue.str "c1")]])
    getRecommendations := fun _ => .ok (JSValue.arr []) }

/-- A backend that answers every request with a payload whose `results` is
an object with a `length` that has a member `toString`, and a mock provider
that knows one café. -/
def unprintablePayloadTransport : Transport :=
  { apiRequest := fun _ =>
      JSON.parse "\x7b\"results\":\x7b\"length\":\x7b\"toString\":null\x7d\x7d\x7d"
    searchCafes := fun _ _ => .ok (JSValue.arr [JSValue.obj [("id", JSValue.str "c1")]])
    getRecommendations := fun _ => .ok (JSValue.arr []) }

/-! ## JSON: the bound passed by `parse` is never the reason for a rejection -/

namespace JSON

theorem skipWs_length_le (cs : List Char) : (skipWs cs).length ≤ cs.length := by
  induction cs with
  | nil => simp [skipWs]
  | cons c cs ih =>
    simp only [skipWs]
    split
    · exact Nat.le_succ_of_le ih
    · exact Nat.le_refl _

theorem stringUnits_length_aux (n : Nat) :
    ∀ cs : List Char, cs.length ≤ n →
      ∀ us r, stringUnits cs = some (us, r) → r.length < cs.length := by
  induction n with
  | zero =>
    intro cs hn us r h
    cases cs with
    | nil => simp [stringUnits] at h
    | cons c rest => simp at hn
  | succ n ih =>
    intro cs hn us r h
    cases cs with
    | nil => simp [stringUnits] at h
    | cons c rest =>
      rw [stringUnits.eq_def] at h
      simp only at h
      simp only [List.length_cons] at hn ⊢
      split at h
      · simp only [Option.some.injEq, Prod.mk.injEq] at h
        rw [← h.2]; omega
      · split at h
        · split at h
          · simp at h
          · rename_i e rest1
            simp only [List.length_cons] at hn ⊢
            split at h
            · split at h
              · rename_i h1 h2 h3 h4 rest2
                simp only [List.length_cons] at hn ⊢
                split at h
                · rename_i a b c d us1 r1 _ _ _ _ hrec
                  simp only [Option.some.injEq, Prod.mk.injEq] at h
                  have := ih rest2 (by omega) us1 r1 hrec
                  rw [← h.2]; omega
                · simp at h
              · simp at h
            · split at h
              · rename_i u us1 r1 _ hrec
                simp only [Option.some.injEq, Prod.mk.injEq] at h
                have := ih rest1 (by omega) us1 r1 hrec
                rw [← h.2]; omega
              · simp at h
        · split at h
          · simp at h
          · split at h
            · rename_i us1 r1 hrec
              simp only [Option.some.injEq, Prod.mk.injEq] at h
              have := ih rest (by omega) us1 r1 hrec
              rw [← h.2]; omega
            · simp at h

theorem stringLit_length (cs : List Char) (s : String) (r : List Char)
    (h : stringLit cs = some (s, r)) : r.length < cs.length := by
  unfold stringLit at h
  split at h
  · rename_i us r1 hu
    simp only [Option.some.injEq, Prod.mk.injEq] at h
    rw [← h.2]
    exact stringUnits_length_aux cs.length cs (Nat.le_refl _) us r1 hu
  · simp at h

theorem takeDigits_length_le (cs : List Char) : (takeDigits cs).2.length ≤ cs.length := by
  induction cs with
  | nil => simp [takeDigits]
  | cons c cs ih =>
    simp only [takeDigits]
    split
    · simp only [List.length_cons]; omega
    · exact Nat.le_refl _

theorem dropKeyword_length (ks cs r : List Char) (h : dropKeyword ks cs = some r) :
    r.length ≤ cs.length := by
  induction ks generalizing cs with
  | nil => simp [dropKeyword] at h; rw [h]
  | cons k ks ih =>
    cases cs with
    | nil => simp [dropKeyword] at h
    | cons c cs =>
      simp only [dropKeyword] at h
      split at h
      · have := ih cs h
        simp only [List.length_cons]; omega
      · simp at h

theorem intPart_length (cs ds r : List Char) (h : intPart cs = some (ds, r)) :
    r.length < cs.length := by
  cases cs with
  | nil => simp [intPart] at h
  | cons c cs =>
    simp only [intPart] at h
    split at h
    · simp only [Option.some.injEq, Prod.mk.injEq] at h
      rw [← h.2]; simp
    · split at h
      · simp only [Option.some.injEq, Prod.mk.injEq] at h
        rw [← h.2]
        have := takeDigits_length_le cs
        simp only [List.length_cons]; omega
      · simp at h

theorem fracPart_length (cs ds r : List Char) (h : fracPart cs = some (ds, r)) :
    r.length ≤ cs.length := by
  cases cs with
  | nil => simp [fracPart] at h; rw [h.2]
  | cons c cs =>
    simp only [fracPart] at h
    split at h
    · have := takeDigits_length_le cs
      split at h
      · simp at h
      · rename_i ds1 r1 _ heq
        simp only [Option.some.injEq, Prod.mk.injEq] at h
        rw [heq] at this
        rw [← h.2]
        simp only [List.length_cons] at this ⊢; omega
    · simp only [Option.some.injEq, Prod.mk.injEq] at h
      rw [← h.2]

theorem expPart_length (cs : List Char) (e : Int) (r : List Char)
    (h : expPart cs = some (e, r)) : r.length ≤ cs.length := by
  cases cs with
  | nil => simp [expPart] at h; rw [h.2]
  | cons c cs =>
    simp only [expPart] at h
    split at h
    · split at h
      · simp at h
      · rename_i s cs1
        have h1 := takeDigits_length_le cs1
        have h2 := takeDigits_length_le (s :: cs1)
        split at h
        · split at h
          · simp at h
          · rename_i ds1 r1 _ heq
            simp only [Option.some.injEq, Prod.mk.injEq] at h
            rw [heq] at h1
            rw [← h.2]
            simp only [List.length_cons] at h1 ⊢; omega
        · split at h
          · split at h
            · simp at h
            · rename_i ds1 r1 _ heq
              simp only [Option.some.injEq, Prod.mk.injEq] at h
              rw [heq] at h1
              rw [← h.2]
              simp only [List.length_cons] at h1 ⊢; omega
          · split at h
            · simp at h
            · rename_i ds1 r1 _ heq
              simp only [Option.some.injEq, Prod.mk.injEq] at h
              rw [heq] at h2
              rw [← h.2]
              simp only [List.length_cons] at h2 ⊢; omega
    · simp only [Option.some.injEq, Prod.mk.injEq] at h
      rw [← h.2]

theorem numberLit_length (cs : List Char) (x : Float) (r : List Char)
    (h : numberLit cs = some (x, r)) : r.length < cs.length := by
  have key : ∀ (neg : Bool) (ds : List Char) (y : Float) (r1 : List Char),
      unsignedNumber neg ds = some (y, r1) → r1.length < ds.length := by
    intro neg ds y r1 hu
    unfold unsignedNumber at hu
    split at hu
    · simp at hu
    · rename_i ip ra hi
      split at hu
      · simp at hu
      · rename_i fp rb hf
        split at hu
        · simp at hu
        · rename_i e rc he
          simp only [Option.some.injEq, Prod.mk.injEq] at hu
          have a1 := intPart_length _ _ _ hi
          have a2 := fracPart_length _ _ _ hf
          have a3 := expPart_length _ _ _ he
          rw [← hu.2]; omega
  cases cs with
  | nil => simp [numberLit] at h
  | cons c cs =>
    simp only [numberLit] at h
    split at h
    · have := key _ _ _ _ h
      simp only [List.length_cons]; omega
    · exact key _ _ _ _ h

theorem fuel_enough (n : Nat) :
    (∀ cs v r, value n cs = some (v, r) →
      r.length < cs.length ∧ ∀ k, cs.length - r.length ≤ k → value k cs = some (v, r)) ∧
    (∀ cs vs r, elements n cs = some (vs, r) →
      r.length < cs.length ∧ ∀ k, cs.length - r.length ≤ k → elements k cs = some (vs, r)) ∧
    (∀ cs ms r, members n cs = some (ms, r) →
      r.length < cs.length ∧ ∀ k, cs.length - r.length ≤ k → members k cs = some (ms, r)) := by
  induction n with
  | zero =>
    refine ⟨?_, ?_, ?_⟩
    · intro cs v r h; simp [value] at h
    · intro cs vs r h; simp [elements] at h
    · intro cs ms r h; simp [members] at h
  | succ n ih =>
    obtain ⟨ihv, ihe, ihm⟩ := ih
    refine ⟨?_, ?_, ?_⟩
    · intro cs v r h
      cases cs with
      | nil => simp [value] at h
      | cons c cs =>
        have hws := skipWs_length_le cs
        simp only [value] at h
        simp only [List.length_cons]
        split at h
        · rename_i hc
          split at h
          · simp at h
          · rename_i d r0 hsk
            rw [hsk] at hws
            simp only [List.length_cons] at hws
            split at h
            · rename_i hd
              simp only [Option.some.injEq, Prod.mk.injEq] at h
              obtain ⟨hv, hr⟩ := h
              subst hv hr
              refine ⟨by omega, ?_⟩
              intro k hk
              cases k with
              | zero => omega
              | succ k => simp [value, hc, hsk, hd]
            · rename_i hd
              split at h
              · rename_i xs r1 hel
                simp only [Option.some.injEq, Prod.mk.injEq] at h
                obtain ⟨hv, hr⟩ := h
                subst hv hr
                obtain ⟨hlt, hk1⟩ := ihe _ _ _ hel
                simp only [List.length_cons] at hlt hk1
                refine ⟨by omega, ?_⟩
                intro k hk
                cases k with
                | zero => omega
                | succ k =>
                  have := hk1 k (by omega)
                  simp [value, hc, hsk, hd, this]
              · simp at h
        · rename_i hc
          split at h
          · rename_i hb
            split at h
            · simp at h
            · rename_i d r0 hsk
              rw [hsk] at hws
              simp only [List.length_cons] at hws
              split at h
              · rename_i hd
                simp only [Option.some.injEq, Prod.mk.injEq] at h
                obtain ⟨hv, hr⟩ := h
                subst hv hr
                refine ⟨by omega, ?_⟩
                intro k hk
                cases k with
                | zero => omega
                | succ k => simp [value, hc, hb, hsk, hd]
              · rename_i hd
                split at h
                · rename_i ms r1 hme
                  simp only [Option.some.injEq, Prod.mk.injEq] at h
                  obtain ⟨hv, hr⟩ := h
                  subst hv hr
                  obtain ⟨hlt, hk1⟩ := ihm _ _ _ hme
                  simp only [List.length_cons] at hlt hk1
                  refine ⟨by omega, ?_⟩
                  intro k hk
                  cases k with
                  | zero => omega
                  | succ k =>
                    have := hk1 k (by omega)
                    simp [value, hc, hb, hsk, hd, this]
                · simp at h
          · rename_i hb
            split at h
            · rename_i hq
              split at h
              · rename_i s r1 hs
                simp only [Option.some.injEq, Prod.mk.injEq] at h
                obtain ⟨hv, hr⟩ := h
                subst hv hr
                have hlt := stringLit_length _ _ _ hs
                refine ⟨by omega, ?_⟩
                intro k hk
                cases k with
                | zero => omega
                | succ k => simp [value, hc, hb, hq, hs]
              · simp at h
            · rename_i hq
              split at h
              · rename_i ht
                simp only [Option.map_eq_some', Prod.mk.injEq] at h
                obtain ⟨r1, hdk, hv, hr⟩ := h
                subst hv hr
                have hlt := dropKeyword_length _ _ _ hdk
                refine ⟨by omega, ?_⟩
                intro k hk
                cases k with
                | zero => omega
                | succ k =>
                  simp [value, hc, hb, hq, ht]
                  exact hdk
              · rename_i ht
                split at h
                · rename_i hf
                  simp only [Option.map_eq_some', Prod.mk.injEq] at h
                  obtain ⟨r1, hdk, hv, hr⟩ := h
                  subst hv hr
                  have hlt := dropKeyword_length _ _ _ hdk
                  refine ⟨by omega, ?_⟩
                  intro k hk
                  cases k with
                  | zero => omega
                  | succ k =>
                    simp [value, hc, hb, hq, ht, hf]
                    exact hdk
                · rename_i hf
                  split at h
                  · rename_i hn
                    simp only [Option.map_eq_some', Prod.mk.injEq] at h
                    obtain ⟨r1, hdk, hv, hr⟩ := h
                    subst hv hr
                    have hlt := dropKeyword_length _ _ _ hdk
                    refine ⟨by omega, ?_⟩
                    intro k hk
                    cases k with
                    | zero => omega
                    | succ k =>
                      simp [value, hc, hb, hq, ht, hf, hn]
                      exact hdk
                  · rename_i hn
                    split at h
                    · rename_i x r1 hnum
                      simp only [Option.some.injEq, Prod.mk.injEq] at h
                      obtain ⟨hv, hr⟩ := h
                      subst hv hr
                      have hlt := numberLit_length _ _ _ hnum
                      simp only [List.length_cons] at hlt
                      refine ⟨by omega, ?_⟩
                      intro k hk
                      cases k with
                      | zero => omega
                      | succ k => simp [value, hc, hb, hq, ht, hf, hn, hnum]
                    · simp at h
    · intro cs vs r h
      simp only [elements] at h
      split at h
      · simp at h
      · rename_i v r0 hval
        obtain ⟨hlt0, hk0⟩ := ihv _ _ _ hval
        have hws := skipWs_length_le r0
        split at h
        · simp at h
        · rename_i d r1 hsk
          rw [hsk] at hws
          simp only [List.length_cons] at hws
          split at h
          · rename_i hd
            have hws1 := skipWs_length_le r1
            split at h
            · rename_i vs1 r2 hel
              simp only [Option.some.injEq, Prod.mk.injEq] at h
              obtain ⟨hv, hr⟩ := h
              subst hv hr
              obtain ⟨hlt1, hk1⟩ := ihe _ _ _ hel
              refine ⟨by omega, ?_⟩
              intro k hk
              cases k with
              | zero => omega
              | succ k =>
                have e1 := hk0 k (by omega)
                have e2 := hk1 k (by omega)
                simp [elements, e1, hsk, hd, e2]
            · simp at h
          · rename_i hd
            split at h
            · rename_i hd2
              simp only [Option.some.injEq, Prod.mk.injEq] at h
              obtain ⟨hv, hr⟩ := h
              subst hv hr
              refine ⟨by omega, ?_⟩
              intro k hk
              cases k with
              | zero => omega
              | succ k =>
                have e1 := hk0 k (by omega)
                simp [elements, e1, hsk, hd, hd2]
            · simp at h
    · intro cs ms r h
      cases cs with
      | nil => simp [members] at h
      | cons q cs =>
        simp only [members] at h
        simp only [List.length_cons]
        split at h
        · rename_i hq
          split at h
          · simp at h
          · rename_i key r0 hkey
            have hl0 := stringLit_length _ _ _ hkey
            have hws := skipWs_length_le r0
            split at h
            · simp at h
            · rename_i colon r1 hsk
              rw [hsk] at hws
              simp only [List.length_cons] at hws
              split at h
              · rename_i hcolon
                have hws1 := skipWs_length_le r1
                split at h
                · simp at h
                · rename_i v r2 hval
                  obtain ⟨hlt2, hk2⟩ := ihv _ _ _ hval
                  have hws2 := skipWs_length_le r2
                  split at h
                  · simp at h
                  · rename_i d r3 hsk2
                    rw [hsk2] at hws2
                    simp only [List.length_cons] at hws2
                    split at h
                    · rename_i hd
                      have hws3 := skipWs_length_le r3
                      split at h
                      · rename_i ms1 r4 hme
                        simp only [Option.some.injEq, Prod.mk.injEq] at h
                        obtain ⟨hv, hr⟩ := h
                        subst hv hr
                        obtain ⟨hlt4, hk4⟩ := ihm _ _ _ hme
                        refine ⟨by omega, ?_⟩
                        intro k hk
                        cases k with
                        | zero => omega
                        | succ k =>
                          have e1 := hk2 k (by omega)
                          have e2 := hk4 k (by omega)
                          simp [members, hq, hkey, hsk, hcolon, e1, hsk2, hd, e2]
                      · simp at h
                    · rename_i hd
                      split at h
                      · rename_i hd2
                        simp only [Option.some.injEq, Prod.mk.injEq] at h
                        obtain ⟨hv, hr⟩ := h
                        subst hv hr
                        refine ⟨by omega, ?_⟩
                        intro k hk
                        cases k with
                        | zero => omega
                        | succ k =>
                          have e1 := hk2 k (by omega)
                          simp [members, hq, hkey, hsk, hcolon, e1, hsk2, hd, hd2]
                      · simp at h
              · simp at h
        · simp at h

theorem parse_bound_suffices (text : String) (n : Nat) (v : JSValue) (rest : List Char)
    (h : value n (skipWs text.toList) = some (v, rest)) :
    value (text.length + 1) (skipWs text.toList) = some (v, rest) := by
  have hlen : (skipWs text.toList).length ≤ text.length := skipWs_length_le text.toList
  exact ((fuel_enough n).1 _ _ _ h).2 _ (by omega)

end JSON

/-! ## Favorites: lemmas -/

namespace FavoriteManager

theorem isFavorite_iff_hasId (m : FavoriteManager) (cafeId : String) :
    m.isFavorite cafeId = true ↔ hasId m.favorites cafeId := by
  simp [isFavorite, hasId, List.any_eq_true]

theorem isFavorite_false_iff (m : FavoriteManager) (cafeId : String) :
    m.isFavorite cafeId = false ↔ ∀ fav ∈ m.favorites, fav.id ≠ cafeId := by
  simp [isFavorite, List.any_eq_false]

theorem addFavorite_present (env : Env) (cafe : Cafe) (m : FavoriteManager) (b : Browser)
    (h : m.isFavorite cafe.id = true) :
    addFavorite env cafe m b = (false, m, showToast "此咖啡廳已在收藏清單中" "warning" b) := by
  simp [addFavorite, h]

theorem addFavorite_absent_favorites (env : Env) (cafe : Cafe) (m : FavoriteManager)
    (b : Browser) (h : m.isFavorite cafe.id = false) :
    (addFavorite env cafe m b).1 = true ∧
    (addFavorite env cafe m b).2.1.favorites = favoriteOf cafe env.now :: m.favorites := by
  unfold addFavorite
  simp only [h]
  refine ⟨by simp, ?_⟩
  cases cafe with
  | mk id name address features hashtags score =>
    cases features <;> cases hashtags <;> simp [favoriteOf]

theorem removeFavorite_fst (env : Env) (cafeId : String) (m : FavoriteManager) (b : Browser) :
    (removeFavorite env cafeId m b).1 = true := by
  unfold removeFavorite
  simp only
  split <;> rfl

theorem removeFavorite_favorites (env : Env) (cafeId : String) (m : FavoriteManager)
    (b : Browser) :
    (removeFavorite env cafeId m b).2.1.favorites
      = m.favorites.filter (fun fav => fav.id != cafeId) := by
  unfold removeFavorite
  simp only
  split <;> rfl

theorem clearAll_favorites (env : Env) (m : FavoriteManager) (b : Browser) :
    (clearAll env m b).2.1.favorites = if env.confirm then [] else m.favorites := by
  unfold clearAll
  split <;> rfl

theorem distinctIds_addFavorite (env : Env) (cafe : Cafe) (m : FavoriteManager) (b : Browser)
    (h : distinctIds m.favorites) : distinctIds (addFavorite env cafe m b).2.1.favorites := by
  cases hf : m.isFavorite cafe.id with
  | true => rw [addFavorite_present env cafe m b hf]; exact h
  | false =>
    rw [(addFavorite_absent_favorites env cafe m b hf).2]
    refine List.Pairwise.cons ?_ h
    intro fav hfav heq
    exact (isFavorite_false_iff m cafe.id).1 hf fav hfav heq.symm

theorem distinctIds_removeFavorite (env : Env) (cafeId : String) (m : FavoriteManager)
    (b : Browser) (h : distinctIds m.favorites) :
    distinctIds (removeFavorite env cafeId m b).2.1.favorites := by
  rw [removeFavorite_favorites]
  exact List.Pairwise.filter _ h

theorem distinctIds_toggleFavorite (env : Env) (cafe : Cafe) (m : FavoriteManager)
    (b : Browser) (h : distinctIds m.favorites) :
    distinctIds (toggleFavorite env cafe m b).2.1.favorites := by
  unfold toggleFavorite
  split
  · exact distinctIds_removeFavorite env cafe.id m b h
  · exact distinctIds_addFavorite env cafe m b h

theorem distinctIds_clearAll (env : Env) (m : FavoriteManager) (b : Browser)
    (h : distinctIds m.favorites) : distinctIds (clearAll env m b).2.1.favorites := by
  rw [clearAll_favorites]
  split
  · exact List.Pairwise.nil
  · exact h

theorem distinctIds_apply (env : Env) (op : Op) (s : FavoriteManager × Browser)
    (h : distinctIds s.1.favorites) : distinctIds (op.apply env s).1.favorites := by
  cases op with
  | addFavorite cafe => exact distinctIds_addFavorite env cafe s.1 s.2 h
  | removeFavorite cafeId => exact distinctIds_removeFavorite env cafeId s.1 s.2 h
  | toggleFavorite cafe => exact distinctIds_toggleFavorite env cafe s.1 s.2 h
  | clearAll => exact distinctIds_clearAll env s.1 s.2 h
  | addListener callback => exact h

end FavoriteManager

/-! ## Favorites: the claims -/

/-- C1. Starting from a favorites list whose items have pairwise distinct ids
(the empty list among them), after every finite sequence of `addFavorite`,
`removeFavorite`, `toggleFavorite`, `clearAll` and `addListener` calls, with
arbitrary arguments and in arbitrary browser environments, no two items of
`favorites` share an id. -/
theorem no_duplicate_ids_after_any_calls (ops : List (Env × Op)) (m : FavoriteManager)
    (b : Browser) (h : distinctIds m.favorites) :
    distinctIds (runOps ops (m, b)).1.favorites := by
  suffices H : ∀ (s : FavoriteManager × Browser), distinctIds s.1.favorites →
      distinctIds (runOps ops s).1.favorites from H (m, b) h
  induction ops with
  | nil => intro s hs; exact hs
  | cons eo rest ih =>
    intro s hs
    obtain ⟨env, op⟩ := eo
    exact ih _ (FavoriteManager.distinctIds_apply env op s hs)

/-- Witness of C1: from the empty store, adding `c1` twice, toggling `c2`,
adding `c1` while storage is full, removing `c2` and declining `clearAll`
leaves a list without a repeated id. -/
theorem no_duplicate_ids_after_any_calls_witness :
    distinctIds emptyManager.favorites ∧
    distinctIds (runOps
      [(sampleEnv, Op.addFavorite cafeA), (sampleEnv, Op.addFavorite cafeA),
       (sampleEnv, Op.toggleFavorite cafeB), (fullDiskEnv, Op.addFavorite cafeA),
       (sampleEnv, Op.removeFavorite "c2"), (sampleEnv, Op.clearAll)]
      (emptyManager, emptyBrowser)).1.favorites :=
  ⟨List.Pairwise.nil,
   no_duplicate_ids_after_any_calls _ emptyManager emptyBrowser List.Pairwise.nil⟩

/-- C2. When the id of `cafe` is already the id of a stored favorite,
`addFavorite(cafe)` returns `false`, leaves the manager (the favorites
sequence, item for item and in order, and the listeners) and the storage as
they were, and its only effect is the warning toast: no storage write and no
listener call is logged. -/
theorem addFavorite_existing_id_rejected (env : Env) (cafe : Cafe) (m : FavoriteManager)
    (b : Browser) (h : hasId m.favorites cafe.id) :
    (m.addFavorite env cafe b).1 = false ∧
    (m.addFavorite env cafe b).2.1 = m ∧
    (m.addFavorite env cafe b).2.1.getFavorites = m.getFavorites ∧
    (m.addFavorite env cafe b).2.2.localStorage = b.localStorage ∧
    (m.addFavorite env cafe b).2.2.log
      = b.log ++ [Event.toast "此咖啡廳已在收藏清單中" "warning"] := by
  have hf := (FavoriteManager.isFavorite_iff_hasId m cafe.id).2 h
  rw [FavoriteManager.addFavorite_present env cafe m b hf]
  exact ⟨rfl, rfl, rfl, rfl, rfl⟩

/-- Witness of C2: adding `c1` to a store that already holds `c1`. -/
theorem addFavorite_existing_id_rejected_witness :
    hasId storeWithA.favorites cafeA.id ∧
    (storeWithA.addFavorite sampleEnv cafeA emptyBrowser).1 = false ∧
    (storeWithA.addFavorite sampleEnv cafeA emptyBrowser).2.1 = storeWithA ∧
    (storeWithA.addFavorite sampleEnv cafeA emptyBrowser).2.1.getFavorites
      = storeWithA.getFavorites ∧
    (storeWithA.addFavorite sampleEnv cafeA emptyBrowser).2.2.localStorage
      = emptyBrowser.localStorage ∧
    (storeWithA.addFavorite sampleEnv cafeA emptyBrowser).2.2.log
      = emptyBrowser.log ++ [Event.toast "此咖啡廳已在收藏清單中" "warning"] :=
  ⟨⟨_, List.mem_singleton.2 rfl, rfl⟩,
   addFavorite_existing_id_rejected sampleEnv cafeA storeWithA emptyBrowser
     ⟨_, List.mem_singleton.2 rfl, rfl⟩⟩

/-- C3. Newest-first scenario. For every store and every two cafés `a`, `b`
whose ids differ from each other and from all ids in the store, in arbitrary
browser environments: `addFavorite(a)` returns `true` and puts the item of `a`
first; `addFavorite(b)` returns `true` and `getFavorites()` is then the item
of `b`, the item of `a`, and the former items in their order;
`removeFavorite(a.id)` leaves the item of `b` followed by the former items;
`clearAll()` with the confirmation declined returns `false` and leaves that
list unchanged. The items carry id, name, address, features, hashtags and
score of the café, features and hashtags being the empty list when missing.
(The distinctness of the ids already in the store is not needed.) -/
theorem newest_first_scenario (e1 e2 e3 e4 : Env) (a b : Cafe) (m : FavoriteManager)
    (w : Browser) (hab : a.id ≠ b.id) (ha : ¬ hasId m.favorites a.id)
    (hb : ¬ hasId m.favorites b.id) (hdecline : e4.confirm = false) :
    let r1 := m.addFavorite e1 a w
    let r2 := r1.2.1.addFavorite e2 b r1.2.2
    let r3 := r2.2.1.removeFavorite e3 a.id r2.2.2
    let r4 := r3.2.1.clearAll e4 r3.2.2
    r1.1 = true ∧ r1.2.1.getFavorites = favoriteOf a e1.now :: m.favorites ∧
    r2.1 = true ∧
    r2.2.1.getFavorites = favoriteOf b e2.now :: favoriteOf a e1.now :: m.favorites ∧
    r3.2.1.getFavorites = favoriteOf b e2.now :: m.favorites ∧
    r4.1 = false ∧ r4.2.1.getFavorites = favoriteOf b e2.now :: m.favorites := by
  intro r1 r2 r3 r4
  have hfa : m.isFavorite a.id = false := by
    rw [← Bool.not_eq_true, FavoriteManager.isFavorite_iff_hasId]; exact ha
  have h1 := FavoriteManager.addFavorite_absent_favorites e1 a m w hfa
  have hfb : r1.2.1.isFavorite b.id = false := by
    rw [FavoriteManager.isFavorite_false_iff, h1.2]
    intro fav hfav
    rcases List.mem_cons.1 hfav with rfl | hmem
    · exact hab
    · exact fun heq => hb ⟨fav, hmem, heq⟩
  have h2 := FavoriteManager.addFavorite_absent_favorites e2 b r1.2.1 r1.2.2 hfb
  have h3 : r3.2.1.favorites = favoriteOf b e2.now :: m.favorites := by
    show (FavoriteManager.removeFavorite e3 a.id r2.2.1 r2.2.2).2.1.favorites = _
    rw [FavoriteManager.removeFavorite_favorites, h2.2, h1.2]
    have hba : (favoriteOf b e2.now).id ≠ a.id := fun h => hab h.symm
    have haa : (favoriteOf a e1.now).id = a.id := rfl
    have hkeep : m.favorites.filter (fun fav => fav.id != a.id) = m.favorites := by
      rw [List.filter_eq_self]
      intro fav hfav
      simpa using fun heq => ha ⟨fav, hfav, heq⟩
    simp [List.filter_cons, hba, haa, hkeep]
  have h4 : r4 = (false, r3.2.1, r3.2.2) := by
    show FavoriteManager.clearAll e4 r3.2.1 r3.2.2 = _
    simp [FavoriteManager.clearAll, hdecline]
  refine ⟨h1.1, h1.2, h2.1, ?_, h3, ?_, ?_⟩
  · show r2.2.1.favorites = _
    rw [h2.2, h1.2]
  · rw [h4]
  · rw [h4]; exact h3

/-- Witness of C3: the scenario of the specification, from the empty store
with `c1` and then `c2` (the second write to storage failing). -/
theorem newest_first_scenario_witness :
    (cafeA.id ≠ cafeB.id ∧ ¬ hasId emptyManager.favorites cafeA.id ∧
      ¬ hasId emptyManager.favorites cafeB.id ∧ sampleEnv.confirm = false) ∧
    (let r1 := emptyManager.addFavorite sampleEnv cafeA emptyBrowser
     let r2 := r1.2.1.addFavorite fullDiskEnv cafeB r1.2.2
     let r3 := r2.2.1.removeFavorite sampleEnv cafeA.id r2.2.2
     let r4 := r3.2.1.clearAll sampleEnv r3.2.2
     r1.1 = true ∧
     r1.2.1.getFavorites = favoriteOf cafeA sampleEnv.now :: emptyManager.favorites ∧
     r2.1 = true ∧
     r2.2.1.getFavorites
       = favoriteOf cafeB fullDiskEnv.now :: favoriteOf cafeA sampleEnv.now
          :: emptyManager.favorites ∧
     r3.2.1.getFavorites = favoriteOf cafeB fullDiskEnv.now :: emptyManager.favorites ∧
     r4.1 = false ∧
     r4.2.1.getFavorites = favoriteOf cafeB fullDiskEnv.now :: emptyManager.favorites) :=
  ⟨⟨by decide, by simp [hasId, emptyManager], by simp [hasId, emptyManager], rfl⟩,
   newest_first_scenario sampleEnv fullDiskEnv sampleEnv sampleEnv cafeA cafeB emptyManager
     emptyBrowser (by decide) (by simp [hasId, emptyManager])
     (by simp [hasId, emptyManager]) rfl⟩

/-- C4. `toggleFavorite(cafe)` always yields the opposite membership state:
`isFavorite(cafe.id)` after the call is the negation of `isFavorite(cafe.id)`
before it; hence two calls in succession, in whatever browser environments,
restore the membership state of `cafe.id`. -/
theorem toggleFavorite_flips_membership (env env2 : Env) (cafe : Cafe) (m : FavoriteManager)
    (b : Browser) :
    (m.toggleFavorite env cafe b).2.1.isFavorite cafe.id = !m.isFavorite cafe.id ∧
    ((m.toggleFavorite env cafe b).2.1.toggleFavorite env2 cafe
        (m.toggleFavorite env cafe b).2.2).2.1.isFavorite cafe.id
      = m.isFavorite cafe.id := by
  have flip : ∀ (e : Env) (n : FavoriteManager) (w : Browser),
      (n.toggleFavorite e cafe w).2.1.isFavorite cafe.id = !n.isFavorite cafe.id := by
    intro e n w
    cases hf : n.isFavorite cafe.id with
    | true =>
      have : n.toggleFavorite e cafe w = n.removeFavorite e cafe.id w := by
        simp [FavoriteManager.toggleFavorite, hf]
      rw [this, Bool.not_true, FavoriteManager.isFavorite_false_iff,
        FavoriteManager.removeFavorite_favorites]
      intro fav hfav
      simpa using (List.mem_filter.1 hfav).2
    | false =>
      have : n.toggleFavorite e cafe w = n.addFavorite e cafe w := by
        simp [FavoriteManager.toggleFavorite, hf]
      rw [this, Bool.not_false, FavoriteManager.isFavorite_iff_hasId,
        (FavoriteManager.addFavorite_absent_favorites e cafe n w hf).2]
      exact ⟨_, List.mem_cons_self _ _, rfl⟩
  refine ⟨flip env m b, ?_⟩
  rw [flip env2, flip env, Bool.not_not]

/-- C5, as stated, fails: on the empty store `removeFavorite` of the id `c1` returns
`true` although no item with that id was present. -/
theorem removeFavorite_returns_true_without_removal :
    (emptyManager.removeFavorite sampleEnv "c1" emptyBrowser).1 = true ∧
    ¬ hasId emptyManager.favorites "c1" :=
  ⟨rfl, by simp [hasId, emptyManager]⟩

/-- C5, amended. `removeFavorite(id)` returns `true` for every store state and
every id, whether or not an item with that id was in the store: the returned
value does not signal whether removal occurred. What does depend on it is the
removal itself (afterwards no item has that id, the other items stay in their
order, and the sequence is unchanged exactly when no item with that id was
present) and the success toast, which follows the save when an item with that
id was present and is left out when none was. -/
theorem removeFavorite_always_true (env : Env) (cafeId : String) (m : FavoriteManager)
    (b : Browser) :
    (m.removeFavorite env cafeId b).1 = true ∧
    ¬ hasId (m.removeFavorite env cafeId b).2.1.favorites cafeId ∧
    (m.removeFavorite env cafeId b).2.1.favorites
      = m.favorites.filter (fun fav => fav.id != cafeId) ∧
    ((m.removeFavorite env cafeId b).2.1.favorites = m.favorites
      ↔ ¬ hasId m.favorites cafeId) ∧
    (hasId m.favorites cafeId →
      ∃ fav ∈ m.favorites, fav.id = cafeId ∧
        (m.removeFavorite env cafeId b).2.2
          = showToast ("已取消收藏「" ++ templateString fav.name ++ "」") "success"
              ((m.removeFavorite env cafeId b).2.1.saveFavorites env b)) ∧
    (¬ hasId m.favorites cafeId →
      (m.removeFavorite env cafeId b).2.2
        = (m.removeFavorite env cafeId b).2.1.saveFavorites env b) := by
  refine ⟨FavoriteManager.removeFavorite_fst env cafeId m b, ?_,
    FavoriteManager.removeFavorite_favorites env cafeId m b, ?_, ?_, ?_⟩
  · rw [FavoriteManager.removeFavorite_favorites]
    rintro ⟨fav, hfav, heq⟩
    simpa [heq] using (List.mem_filter.1 hfav).2
  · rw [FavoriteManager.removeFavorite_favorites, List.filter_eq_self]
    constructor
    · rintro h ⟨fav, hfav, heq⟩
      simpa [heq] using h fav hfav
    · intro h fav hfav
      simpa using fun heq => h ⟨fav, hfav, heq⟩
  · intro hpresent
    cases hfind : m.favorites.find? (fun fav => fav.id == cafeId) with
    | none =>
      obtain ⟨fav, hfav, heq⟩ := hpresent
      have := List.find?_eq_none.1 hfind fav hfav
      simp [heq] at this
    | some c =>
      refine ⟨c, List.mem_of_find?_eq_some hfind, ?_, ?_⟩
      · simpa using List.find?_some hfind
      · simp [FavoriteManager.removeFavorite, hfind]
  · intro habsent
    have hfind : m.favorites.find? (fun fav => fav.id == cafeId) = none := by
      rw [List.find?_eq_none]
      intro fav hfav
      simpa using fun heq => habsent ⟨fav, hfav, heq⟩
    simp [FavoriteManager.removeFavorite, hfind]

/-- C6. The code departs from the claim where the persisted text is valid
JSON of another shape. For the stored text `true`, `loadFavorites()` returns
the parsed value `true`, and for the stored text `null` the value `null`,
where the claim has the empty sequence. -/
theorem loadFavorites_returns_non_array :
    (FavoriteManager.loadFavorites sampleEnv "cafe_favorites" (browserWith "true")).1
      = JSValue.bool true ∧
    JSValue.bool true ≠ JSValue.arr [] ∧
    (FavoriteManager.loadFavorites sampleEnv "cafe_favorites" (browserWith "null")).1
      = JSValue.null ∧
    JSValue.null ≠ JSValue.arr [] :=
  ⟨rfl, fun h => JSValue.noConfusion h, rfl, fun h => JSValue.noConfusion h⟩

namespace FavoriteManager

/-- The cases of C6 that the code meets: when the persisted value under the
favorites key is absent, is the empty text, or is text that `JSON.parse`
rejects, and also when reading the storage throws, `loadFavorites()` returns
the empty sequence (it always returns: the exception is caught). -/
theorem loadFavorites_fails_soft (env : Env) (storageKey : String) (b : Browser)
    (h : env.getItemOk = false ∨ b.localStorage storageKey = none ∨
      b.localStorage storageKey = some "" ∨
      ∃ text e, b.localStorage storageKey = some text ∧ JSON.parse text = .error e) :
    (loadFavorites env storageKey b).1 = JSValue.arr [] := by
  unfold loadFavorites localStorageGetItem
  cases hg : env.getItemOk with
  | false => simp
  | true =>
    simp only [if_true]
    rcases h with h | h | h | ⟨text, e, h, hp⟩
    · simp [hg] at h
    · simp [h]
    · simp [h]
    · simp only [h, hp]
      split <;> rfl

/-- An instance of the lemma above: the persisted text `[1,]` is rejected by
`JSON.parse` and `loadFavorites()` returns the empty sequence. -/
theorem loadFavorites_fails_soft_example :
    JSON.parse "[1,]" = .error "SyntaxError: Unexpected token in JSON" ∧
    (loadFavorites sampleEnv "cafe_favorites" (browserWith "[1,]")).1 = JSValue.arr [] :=
  ⟨rfl, loadFavorites_fails_soft sampleEnv "cafe_favorites" (browserWith "[1,]")
    (Or.inr (Or.inr (Or.inr ⟨"[1,]", _, rfl, rfl⟩)))⟩

end FavoriteManager

/-! ## Search: lemmas -/

namespace SearchManager

theorem truthyString_iff_carries (field : Option String) :
    truthyString field = true ↔ carries field := by
  cases field with
  | none => simp [truthyString, carries]
  | some s => simp [truthyString, carries]

theorem advancedParams_eq (query : String) (filterParams : FilterParams) :
    advancedParams query filterParams = ("keyword", query) :: filterPairs filterParams := by
  have hk : (if (query != "") = true then query else "") = query := by
    by_cases h : query = "" <;> simp [h]
  cases filterParams with
  | mk district features =>
    simp only [advancedParams, filterPairs, hk]
    cases district with
    | none => cases features with
      | none => simp
      | some f => by_cases hf : f = "" <;> simp [hf]
    | some d => cases features with
      | none => by_cases hd : d = "" <;> simp [hd]
      | some f => by_cases hd : d = "" <;> by_cases hf : f = "" <;> simp [hd, hf]

theorem requestUrl_advanced (query : String) (filterParams : FilterParams)
    (h : carries filterParams.district ∨ carries filterParams.features) :
    requestUrl query filterParams
      = some ("/search/advanced?"
          ++ URLSearchParams.toString (("keyword", query) :: filterPairs filterParams)) := by
  have hb : (truthyString filterParams.district || truthyString filterParams.features)
      = true := by
    rcases h with h | h
    · simp [(truthyString_iff_carries _).2 h]
    · simp [(truthyString_iff_carries _).2 h]
  simp only [requestUrl, hb, if_true, advancedParams_eq]

theorem requestUrl_unfiltered (query : String) (filterParams : FilterParams)
    (h : ¬ (carries filterParams.district ∨ carries filterParams.features)) :
    requestUrl query filterParams
      = if query = "" then none
        else some ("/search?" ++ URLSearchParams.toString [("q", query)]) := by
  have hb : (truthyString filterParams.district || truthyString filterParams.features)
      = false := by
    rw [Bool.or_eq_false_iff]
    constructor
    · rw [← Bool.not_eq_true, truthyString_iff_carries]; exact fun hc => h (Or.inl hc)
    · rw [← Bool.not_eq_true, truthyString_iff_carries]; exact fun hc => h (Or.inr hc)
  simp only [requestUrl, hb]
  by_cases hq : query = "" <;> simp [hq]

theorem requestUrl_issued (query : String) (filterParams : FilterParams)
    (h : carries filterParams.district ∨ carries filterParams.features ∨ query ≠ "") :
    ∃ url, requestUrl query filterParams = some url := by
  by_cases hc : carries filterParams.district ∨ carries filterParams.features
  · exact ⟨_, requestUrl_advanced query filterParams hc⟩
  · have hq : query ≠ "" := by
      rcases h with h | h | h
      · exact absurd (Or.inl h) hc
      · exact absurd (Or.inr h) hc
      · exact h
    exact ⟨_, by rw [requestUrl_unfiltered query filterParams hc, if_neg hq]⟩

theorem search_calls (t : Transport) (query : String) (filterParams : FilterParams)
    (m : SearchManager) (calls : List Call) (url : String)
    (h : requestUrl query filterParams = some url) :
    ∃ rest, (search t query filterParams m calls).2.2 = calls ++ Call.apiRequest url :: rest ∧
      ∀ u, Call.apiRequest u ∉ rest := by
  unfold search
  simp only [h]
  split
  · exact ⟨[], by simp, by simp⟩
  · split
    · exact ⟨[Call.searchCafes query filterParams], by simp, by simp⟩
    · rename_i e _
      exact ⟨[Call.searchCafes query filterParams, Call.consoleError ("Search failed: " ++ e)],
        by simp, by simp⟩

end SearchManager

/-! ## Search: the claims -/

/-- C7. For the empty query and filter params that carry neither a district
nor a features constraint, `search` returns the empty list without invoking
any transport: the log of outgoing calls is as before (no `apiRequest`, no
mock-provider call), `currentResults` becomes empty and `currentQuery` the
empty string. -/
theorem search_nothing_asked (t : Transport) (filterParams : FilterParams)
    (m : SearchManager) (calls : List Call)
    (hd : ¬ carries filterParams.district) (hf : ¬ carries filterParams.features) :
    m.search t "" filterParams calls
      = (.ok (JSValue.arr []),
         { currentResults := JSValue.arr [], currentQuery := "" }, calls) := by
  have h := SearchManager.requestUrl_unfiltered "" filterParams
    (fun hc => hc.elim hd hf)
  simp only [if_true] at h
  simp only [SearchManager.search, h]

/-- Witness of C7: the empty query with the empty filter record, whatever the
transport would answer. -/
theorem search_nothing_asked_witness :
    (¬ carries (FilterParams.mk none none).district ∧
      ¬ carries (FilterParams.mk none none).features) ∧
    SearchManager.new.search offlineTransport "" (FilterParams.mk none none) []
      = (.ok (JSValue.arr []),
         { currentResults := JSValue.arr [], currentQuery := "" }, []) :=
  ⟨⟨by simp [carries], by simp [carries]⟩,
   search_nothing_asked offlineTransport (FilterParams.mk none none) SearchManager.new []
     (by simp [carries]) (by simp [carries])⟩

/-- C8. Request selection in `search`. If the filters carry a district or a
features constraint, the one backend request issued goes to `/search/advanced`
with the parameters `keyword` = query (the empty string when there is no
query) followed by `districts` and `features` for exactly the fields that
carry a constraint. Otherwise, if the query is non-empty, the one backend
request goes to `/search` with the single parameter `q` = query. -/
theorem search_request_selection (t : Transport) (query : String)
    (filterParams : FilterParams) (m : SearchManager) (calls : List Call) :
    ((carries filterParams.district ∨ carries filterParams.features) →
      ∃ rest, (m.search t query filterParams calls).2.2
          = calls ++ Call.apiRequest ("/search/advanced?"
              ++ URLSearchParams.toString (("keyword", query) :: filterPairs filterParams))
            :: rest ∧
        ∀ u, Call.apiRequest u ∉ rest) ∧
    (¬ (carries filterParams.district ∨ carries filterParams.features) → query ≠ "" →
      ∃ rest, (m.search t query filterParams calls).2.2
          = calls ++ Call.apiRequest ("/search?" ++ URLSearchParams.toString [("q", query)])
            :: rest ∧
        ∀ u, Call.apiRequest u ∉ rest) := by
  constructor
  · intro h
    exact SearchManager.search_calls t query filterParams m calls _
      (SearchManager.requestUrl_advanced query filterParams h)
  · intro h hq
    have hu := SearchManager.requestUrl_unfiltered query filterParams h
    rw [if_neg hq] at hu
    exact SearchManager.search_calls t query filterParams m calls _ hu

/-- Witness of C8: the two requests of the scenario in the specification, as the
text handed to `apiRequest`. -/
theorem search_request_selection_witness :
    (carries (FilterParams.mk (some "A") none).district ∧
      "/search/advanced?" ++ URLSearchParams.toString
          (("keyword", "latte") :: filterPairs (FilterParams.mk (some "A") none))
        = "/search/advanced?keyword=latte&districts=A" ∧
      "/search?" ++ URLSearchParams.toString [("q", "latte")] = "/search?q=latte") ∧
    (∃ rest, (SearchManager.new.search offlineTransport "latte"
          (FilterParams.mk (some "A") none) []).2.2
        = [] ++ Call.apiRequest ("/search/advanced?" ++ URLSearchParams.toString
            (("keyword", "latte") :: filterPairs (FilterParams.mk (some "A") none)))
          :: rest ∧
      ∀ u, Call.apiRequest u ∉ rest) :=
  ⟨⟨⟨"A", rfl, by decide⟩, by decide, by decide⟩,
   (search_request_selection offlineTransport "latte" (FilterParams.mk (some "A") none)
      SearchManager.new []).1 (Or.inl ⟨"A", rfl, by decide⟩)⟩

/-- C9. Fallback transparency. When `search` issues a backend request (the
filters carry a constraint or the query is non-empty) and the transport throws
on that request, `search` does not throw: it asks the mock provider with the
same query and filter params, returns exactly the list the mock provider
yields, stores that list as `currentResults` and the query as `currentQuery`.
The calls made are the backend request followed by the one mock call. -/
theorem search_falls_back_to_mock (t : Transport) (query : String)
    (filterParams : FilterParams) (m : SearchManager) (calls : List Call)
    (results : JSValue)
    (hissue : carries filterParams.district ∨ carries filterParams.features ∨ query ≠ "")
    (hfail : ∀ url, SearchManager.requestUrl query filterParams = some url →
      ∃ e, t.apiRequest url = .error e)
    (hmock : t.searchCafes query filterParams = .ok results) :
    (m.search t query filterParams calls).1 = .ok results ∧
    (m.search t query filterParams calls).2.1
      = { currentResults := results, currentQuery := query } ∧
    ∃ url, SearchManager.requestUrl query filterParams = some url ∧
      (m.search t query filterParams calls).2.2
        = calls ++ [Call.apiRequest url, Call.searchCafes query filterParams] := by
  obtain ⟨url, hreq⟩ := SearchManager.requestUrl_issued query filterParams hissue
  obtain ⟨e, hthrow⟩ := hfail url hreq
  have hrun : m.search t query filterParams calls
      = (.ok results, { currentResults := results, currentQuery := query },
         calls ++ [Call.apiRequest url, Call.searchCafes query filterParams]) := by
    simp [SearchManager.search, hreq, hthrow, hmock]
  rw [hrun]
  exact ⟨rfl, rfl, url, hreq, rfl⟩

/-- Witness of C9: the query `espresso` with the empty filter record against a
backend that is down. -/
theorem search_falls_back_to_mock_witness :
    ((carries (FilterParams.mk none none).district ∨
        carries (FilterParams.mk none none).features ∨ "espresso" ≠ "") ∧
      SearchManager.requestUrl "espresso" (FilterParams.mk none none)
        = some "/search?q=espresso") ∧
    ((SearchManager.new.search offlineTransport "espresso" (FilterParams.mk none none) []).1
        = .ok (JSValue.arr [JSValue.obj [("id", JSValue.str "c1")]]) ∧
      (SearchManager.new.search offlineTransport "espresso" (FilterParams.mk none none) []).2.1
        = { currentResults := JSValue.arr [JSValue.obj [("id", JSValue.str "c1")]],
            currentQuery := "espresso" } ∧
      ∃ url, SearchManager.requestUrl "espresso" (FilterParams.mk none none) = some url ∧
        (SearchManager.new.search offlineTransport "espresso"
            (FilterParams.mk none none) []).2.2
          = [] ++ [Call.apiRequest url,
                   Call.searchCafes "espresso" (FilterParams.mk none none)]) :=
  ⟨⟨Or.inr (Or.inr (by decide)), by decide⟩,
   search_falls_back_to_mock offlineTransport "espresso" (FilterParams.mk none none)
     SearchManager.new [] _ (Or.inr (Or.inr (by decide)))
     (fun _ _ => ⟨_, rfl⟩) rfl⟩

/-- C10. Storage-write failure does not roll back. In an environment where
`localStorage.setItem` throws, `saveFavorites` catches the exception (it logs
a console error and shows the error toast, and calls no listener), and
`addFavorite` of a new id, `removeFavorite` and a confirmed `clearAll` still
return `true` with the in-memory sequence mutated (item prepended, item
removed, list emptied) while the storage keeps its former content. -/
theorem write_failure_keeps_memory_change (env : Env) (m : FavoriteManager) (b : Browser)
    (hfail : env.setItemOk = false) :
    (m.saveFavorites env b).localStorage = b.localStorage ∧
    (m.saveFavorites env b).log
      = b.log ++ [Event.consoleError "Failed to save favorites: QuotaExceededError",
                  Event.toast "儲存收藏失敗" "error"] ∧
    (∀ cafe : Cafe, ¬ hasId m.favorites cafe.id →
      (m.addFavorite env cafe b).1 = true ∧
      (m.addFavorite env cafe b).2.1.favorites = favoriteOf cafe env.now :: m.favorites ∧
      (m.addFavorite env cafe b).2.2.localStorage = b.localStorage) ∧
    (∀ cafeId : String,
      (m.removeFavorite env cafeId b).1 = true ∧
      (m.removeFavorite env cafeId b).2.1.favorites
        = m.favorites.filter (fun fav => fav.id != cafeId) ∧
      (m.removeFavorite env cafeId b).2.2.localStorage = b.localStorage) ∧
    (env.confirm = true →
      (m.clearAll env b).1 = true ∧ (m.clearAll env b).2.1.favorites = [] ∧
      (m.clearAll env b).2.2.localStorage = b.localStorage) := by
  have hsave : ∀ (n : FavoriteManager) (w : Browser),
      n.saveFavorites env w
        = showToast "儲存收藏失敗" "error"
            (consoleError "Failed to save favorites: QuotaExceededError" w) := by
    intro n w
    simp [FavoriteManager.saveFavorites, localStorageSetItem, hfail]
  refine ⟨by rw [hsave]; rfl, by rw [hsave]; simp [showToast, consoleError], ?_, ?_, ?_⟩
  · intro cafe hnew
    have hf : m.isFavorite cafe.id = false := by
      rw [← Bool.not_eq_true, FavoriteManager.isFavorite_iff_hasId]; exact hnew
    refine ⟨(FavoriteManager.addFavorite_absent_favorites env cafe m b hf).1,
      (FavoriteManager.addFavorite_absent_favorites env cafe m b hf).2, ?_⟩
    simp [FavoriteManager.addFavorite, hf, hsave, showToast, consoleError]
  · intro cafeId
    refine ⟨FavoriteManager.removeFavorite_fst env cafeId m b,
      FavoriteManager.removeFavorite_favorites env cafeId m b, ?_⟩
    unfold FavoriteManager.removeFavorite
    simp only [hsave]
    split <;> rfl
  · intro hc
    simp [FavoriteManager.clearAll, hc, hsave, showToast, consoleError]

/-- Witness of C10: with storage full, adding `c2` to the store that holds
`c1` puts `c2` first in memory and leaves the storage as it was. -/
theorem write_failure_keeps_memory_change_witness :
    fullDiskEnv.setItemOk = false ∧
    (storeWithA.addFavorite fullDiskEnv cafeB emptyBrowser).1 = true ∧
    (storeWithA.addFavorite fullDiskEnv cafeB emptyBrowser).2.1.favorites
      = favoriteOf cafeB fullDiskEnv.now :: storeWithA.favorites ∧
    (storeWithA.addFavorite fullDiskEnv cafeB emptyBrowser).2.2.localStorage
      = emptyBrowser.localStorage :=
  ⟨rfl, (write_failure_keeps_memory_change fullDiskEnv storeWithA emptyBrowser rfl).2.2.1
    cafeB (by simp [hasId, storeWithA, favoriteOf, cafeA, cafeB])⟩

/-- C11, as stated, fails: the backend answers the query `espresso` with an
object that carries no `results`; `search` returns the empty list, stores it,
and makes the backend call only, while the mock provider would have yielded a
list of one café. -/
theorem search_empty_payload_not_retried :
    (SearchManager.new.search emptyPayloadTransport "espresso"
        (FilterParams.mk none none) []).1 = .ok (JSValue.arr []) ∧
    (SearchManager.new.search emptyPayloadTransport "espresso"
        (FilterParams.mk none none) []).2.1
      = { currentResults := JSValue.arr [], currentQuery := "espresso" } ∧
    (SearchManager.new.search emptyPayloadTransport "espresso"
        (FilterParams.mk none none) []).2.2 = [Call.apiRequest "/search?q=espresso"] ∧
    emptyPayloadTransport.searchCafes "espresso" (FilterParams.mk none none)
      = .ok (JSValue.arr [JSValue.obj [("id", JSValue.str "c1")]]) ∧
    JSValue.arr [] ≠ JSValue.arr [JSValue.obj [("id", JSValue.str "c1")]] := by
  have hreq : SearchManager.requestUrl "espresso" (FilterParams.mk none none)
      = some "/search?q=espresso" := by decide
  have hrun : SearchManager.new.search emptyPayloadTransport "espresso"
        (FilterParams.mk none none) []
      = (.ok (JSValue.arr []),
         { currentResults := JSValue.arr [], currentQuery := "espresso" },
         [Call.apiRequest "/search?q=espresso"]) := by
    simp [SearchManager.search, hreq, emptyPayloadTransport, JSValue.getProp,
      JSValue.lookupMember, JSValue.orEmptyArray, JSValue.truthy, JSValue.getLength,
      JSValue.throwsOnToString]
  rw [hrun]
  refine ⟨rfl, rfl, rfl, rfl, ?_⟩
  intro h
  injection h with h
  cases h

namespace SearchManager

theorem search_printed (t : Transport) (query : String) (filterParams : FilterParams)
    (m : SearchManager) (calls : List Call) (url : String) (data results length : JSValue)
    (hreq : requestUrl query filterParams = some url)
    (hdata : t.apiRequest url = .ok data)
    (hres : data.getProp "results" = .ok results)
    (hlen : results.orEmptyArray.getLength = .ok length)
    (hprint : length.throwsOnToString = false) :
    m.search t query filterParams calls
      = (.ok results.orEmptyArray,
         { currentResults := results.orEmptyArray, currentQuery := query },
         calls ++ [Call.apiRequest url]) := by
  simp [search, hreq, hdata, hres, hlen, hprint]

theorem search_not_printed (t : Transport) (query : String) (filterParams : FilterParams)
    (m : SearchManager) (calls : List Call) (url : String)
    (data results length mocked : JSValue)
    (hreq : requestUrl query filterParams = some url)
    (hdata : t.apiRequest url = .ok data)
    (hres : data.getProp "results" = .ok results)
    (hlen : results.orEmptyArray.getLength = .ok length)
    (hprint : length.throwsOnToString = true)
    (hmock : t.searchCafes query filterParams = .ok mocked) :
    m.search t query filterParams calls
      = (.ok mocked, { currentResults := mocked, currentQuery := query },
         calls ++ [Call.apiRequest url, Call.searchCafes query filterParams]) := by
  simp [search, hreq, hdata, hres, hlen, hprint, hmock]

theorem search_unreadable (t : Transport) (query : String) (filterParams : FilterParams)
    (m : SearchManager) (calls : List Call) (url e : String) (data mocked : JSValue)
    (hreq : requestUrl query filterParams = some url)
    (hdata : t.apiRequest url = .ok data)
    (hres : data.getProp "results" = .error e)
    (hmock : t.searchCafes query filterParams = .ok mocked) :
    m.search t query filterParams calls
      = (.ok mocked, { currentResults := mocked, currentQuery := query },
         calls ++ [Call.apiRequest url, Call.searchCafes query filterParams]) := by
  simp [search, hreq, hdata, hres, hmock]

theorem orEmptyArray_of_falsy (results : JSValue) (h : results.truthy = false) :
    results.orEmptyArray = JSValue.arr [] := by
  simp [JSValue.orEmptyArray, h]

end SearchManager

/-- C11, amended. When `search` issues a backend request and the backend
answers it with the payload `data`, a payload without a `results` list is not
by itself a request failure. (1) If `data` is `null` or `undefined`, reading
`results` off it throws and `search` retries against the mock provider with
the same arguments and returns the list the mock provider yields. (2) If
`data` is an object that carries no `results`, or (3) `data.results` is falsy,
`search` returns the empty list, stores it as `currentResults` and the query
as `currentQuery`, and the backend request is the only call. (4) A `results`
that is a list is returned as it is, without a retry. (5) So is any other
truthy `results` whose `length` the log line at search.js:39 can convert to a
string; (6) when that conversion throws, the exception lands in the same
`catch` and the mock provider is asked. -/
theorem search_payload_handling (t : Transport) (query : String)
    (filterParams : FilterParams) (m : SearchManager) (calls : List Call) (data : JSValue)
    (hissue : carries filterParams.district ∨ carries filterParams.features ∨ query ≠ "")
    (hanswer : ∀ url, SearchManager.requestUrl query filterParams = some url →
      t.apiRequest url = .ok data) :
    ((data = JSValue.null ∨ data = JSValue.undefined) →
      ∀ mocked, t.searchCafes query filterParams = .ok mocked →
        ∃ url, SearchManager.requestUrl query filterParams = some url ∧
          m.search t query filterParams calls
            = (.ok mocked, { currentResults := mocked, currentQuery := query },
               calls ++ [Call.apiRequest url, Call.searchCafes query filterParams])) ∧
    (∀ members, data = JSValue.obj members →
      JSValue.lookupMember "results" members = none →
        ∃ url, SearchManager.requestUrl query filterParams = some url ∧
          m.search t query filterParams calls
            = (.ok (JSValue.arr []),
               { currentResults := JSValue.arr [], currentQuery := query },
               calls ++ [Call.apiRequest url])) ∧
    (∀ results, data.getProp "results" = .ok results → results.truthy = false →
        ∃ url, SearchManager.requestUrl query filterParams = some url ∧
          m.search t query filterParams calls
            = (.ok (JSValue.arr []),
               { currentResults := JSValue.arr [], currentQuery := query },
               calls ++ [Call.apiRequest url])) ∧
    (∀ items, data.getProp "results" = .ok (JSValue.arr items) →
        ∃ url, SearchManager.requestUrl query filterParams = some url ∧
          m.search t query filterParams calls
            = (.ok (JSValue.arr items),
               { currentResults := JSValue.arr items, currentQuery := query },
               calls ++ [Call.apiRequest url])) ∧
    (∀ results length, data.getProp "results" = .ok results → results.truthy = true →
      results.getLength = .ok length → length.throwsOnToString = false →
        ∃ url, SearchManager.requestUrl query filterParams = some url ∧
          m.search t query filterParams calls
            = (.ok results, { currentResults := results, currentQuery := query },
               calls ++ [Call.apiRequest url])) ∧
    (∀ results length mocked, data.getProp "results" = .ok results →
      results.truthy = true → results.getLength = .ok length →
      length.throwsOnToString = true → t.searchCafes query filterParams = .ok mocked →
        ∃ url, SearchManager.requestUrl query filterParams = some url ∧
          m.search t query filterParams calls
            = (.ok mocked, { currentResults := mocked, currentQuery := query },
               calls ++ [Call.apiRequest url, Call.searchCafes query filterParams])) := by
  obtain ⟨url, hreq⟩ := SearchManager.requestUrl_issued query filterParams hissue
  have hdata := hanswer url hreq
  have hfalsy : ∀ results, data.getProp "results" = .ok results → results.truthy = false →
      m.search t query filterParams calls
        = (.ok (JSValue.arr []),
           { currentResults := JSValue.arr [], currentQuery := query },
           calls ++ [Call.apiRequest url]) := by
    intro results hres hf
    have h := SearchManager.search_printed t query filterParams m calls url data results
      (JSValue.num (0 : Nat).toFloat) hreq hdata hres
      (by rw [SearchManager.orEmptyArray_of_falsy results hf]; rfl) rfl
    rw [SearchManager.orEmptyArray_of_falsy results hf] at h
    exact h
  have htruthy : ∀ results : JSValue, results.truthy = true →
      results.orEmptyArray = results := by
    intro results ht
    simp [JSValue.orEmptyArray, ht]
  refine ⟨?_, ?_, ?_, ?_, ?_, ?_⟩
  · intro hnull mocked hmock
    have hthrow : ∃ e, data.getProp "results" = .error e := by
      rcases hnull with h | h <;> subst h <;> exact ⟨_, rfl⟩
    obtain ⟨e, he⟩ := hthrow
    exact ⟨url, hreq,
      SearchManager.search_unreadable t query filterParams m calls url e data mocked
        hreq hdata he hmock⟩
  · intro members hobj hnone
    have hres : data.getProp "results" = .ok JSValue.undefined := by
      subst hobj
      simp [JSValue.getProp, hnone]
    exact ⟨url, hreq, hfalsy _ hres rfl⟩
  · intro results hres hf
    exact ⟨url, hreq, hfalsy results hres hf⟩
  · intro items hres
    have h := SearchManager.search_printed t query filterParams m calls url data
      (JSValue.arr items) (JSValue.num items.length.toFloat) hreq hdata hres
      (by rw [htruthy (JSValue.arr items) rfl]; rfl) rfl
    rw [htruthy (JSValue.arr items) rfl] at h
    exact ⟨url, hreq, h⟩
  · intro results length hres ht hlen hprint
    have h := SearchManager.search_printed t query filterParams m calls url data results
      length hreq hdata hres (by rw [htruthy _ ht]; exact hlen) hprint
    rw [htruthy _ ht] at h
    exact ⟨url, hreq, h⟩
  · intro results length mocked hres ht hlen hprint hmock
    exact ⟨url, hreq,
      SearchManager.search_not_printed t query filterParams m calls url data results length
        mocked hreq hdata hres (by rw [htruthy _ ht]; exact hlen) hprint hmock⟩

/-- Witness of C11, amended: the query `espresso` with the empty filter record
against a backend that answers with an object without members. -/
theorem search_payload_handling_witness :
    ((carries (FilterParams.mk none none).district ∨
        carries (FilterParams.mk none none).features ∨ "espresso" ≠ "") ∧
      ∀ url, SearchManager.requestUrl "espresso" (FilterParams.mk none none) = some url →
        emptyPayloadTransport.apiRequest url = .ok (JSValue.obj [])) ∧
    ∃ url, SearchManager.requestUrl "espresso" (FilterParams.mk none none) = some url ∧
      SearchManager.new.search emptyPayloadTransport "espresso" (FilterParams.mk none none) []
        = (.ok (JSValue.arr []),
           { currentResults := JSValue.arr [], currentQuery := "espresso" },
           [] ++ [Call.apiRequest url]) :=
  ⟨⟨Or.inr (Or.inr (by decide)), fun _ _ => rfl⟩,
   (search_payload_handling emptyPayloadTransport "espresso" (FilterParams.mk none none)
      SearchManager.new [] (JSValue.obj []) (Or.inr (Or.inr (by decide)))
      (fun _ _ => rfl)).2.1 [] rfl rfl⟩

namespace SearchManager

/-- The retry through the log line, on a payload as `JSON.parse` delivers it:
`results` is an object whose `length` has a member `toString`, the conversion
at search.js:39 throws, and `search` returns the list of the mock provider
after the backend call and the mock call. -/
theorem search_unprintable_length_retried :
    unprintablePayloadTransport.apiRequest "/search?q=espresso"
      = .ok (JSValue.obj [("results",
          JSValue.obj [("length", JSValue.obj [("toString", JSValue.null)])])]) ∧
    SearchManager.new.search unprintablePayloadTransport "espresso"
        (FilterParams.mk none none) []
      = (.ok (JSValue.arr [JSValue.obj [("id", JSValue.str "c1")]]),
         { currentResults := JSValue.arr [JSValue.obj [("id", JSValue.str "c1")]],
           currentQuery := "espresso" },
         [Call.apiRequest "/search?q=espresso",
          Call.searchCafes "espresso" (FilterParams.mk none none)]) := by
  have hp : unprintablePayloadTransport.apiRequest "/search?q=espresso"
      = .ok (JSValue.obj [("results",
          JSValue.obj [("length", JSValue.obj [("toString", JSValue.null)])])]) := rfl
  refine ⟨hp, ?_⟩
  exact search_not_printed unprintablePayloadTransport "espresso" (FilterParams.mk none none)
    SearchManager.new [] "/search?q=espresso" _ _ _ _ (by decide) hp rfl rfl rfl rfl

end SearchManager
